import Mathlib

/-!
Shallow embedding of `src/ebbinghaus_web.py` (spaced-repetition flashcard tool).

Conventions of the embedding:
* SQLite tables become Lean lists inside a `DB` structure; the `AUTOINCREMENT`
  primary key of `memory_items` is modelled by the `next_id` counter.
* Python floats (`easiness`, `interval`) are modelled exactly as rationals `ℚ`.
* Timestamps are rationals measured in days, so `datetime.timedelta(days=d)`
  is addition of `d`; `datetime.datetime.now()` becomes an explicit `now`
  argument threaded into each operation that reads the clock.
* SQL `ORDER BY` is modelled with `List.insertionSort` (any correct sort is a
  faithful model of the ordering guarantee).
* The JSON request handlers of `MemoryHTTPRequestHandler` are modelled with
  already-parsed arguments; Python truthiness of `item_id` (`if not item_id`)
  is modelled by `item_id = 0` standing for a missing/zero id.
-/

namespace Ebbinghaus

/-- Row of the `memory_items` table (schema in `init_database`). -/
structure MemoryItem where
  id : Nat
  question : String
  answer : String
  content : String
  category : String
  created_at : ℚ
  last_reviewed : Option ℚ
  next_review : ℚ
  review_count : Nat
  difficulty : Nat
  easiness : ℚ
  interval : ℚ
  mastered : Bool
deriving DecidableEq

/-- Row of the `review_history` table. -/
structure ReviewEvent where
  item_id : Nat
  review_date : ℚ
  quality : Nat
  response_time : Nat
deriving DecidableEq

/-- The whole SQLite database: both tables plus the autoincrement counter. -/
structure DB where
  memory_items : List MemoryItem
  review_history : List ReviewEvent
  next_id : Nat
deriving DecidableEq

/-- Fresh database, as produced by `init_database` (ids start at 1). -/
def emptyDB : DB := ⟨[], [], 1⟩

/-- `EbbinghausMemory.add_item`: inserts a new row with the column defaults
`review_count = 0`, `difficulty = 1`, `easiness = 2.5`, `interval = 1`,
`mastered = FALSE`, and `next_review = now + 1 day`. Returns the new id. -/
def add_item (db : DB) (question answer category : String) (now : ℚ) : DB × Nat :=
  let item : MemoryItem :=
    { id := db.next_id
      question := question
      answer := answer
      content := "Q: " ++ question ++ "\nA: " ++ answer
      category := category
      created_at := now
      last_reviewed := none
      next_review := now + 1
      review_count := 0
      difficulty := 1
      easiness := 5/2
      interval := 1
      mastered := false }
  ({ db with memory_items := db.memory_items ++ [item], next_id := db.next_id + 1 },
   db.next_id)

/-- Line 140 and 141 of the source: the SM-2 easiness update
`easiness = easiness + (0.1 - (5 - quality) * (0.08 + (5 - quality) * 0.02))`
followed by `easiness = max(1.3, min(easiness, 2.5))`. -/
def sm2_easiness (easiness : ℚ) (quality : Nat) : ℚ :=
  let e := easiness + (1/10 - (5 - (quality : ℚ)) * (8/100 + (5 - (quality : ℚ)) * (2/100)))
  max (13/10) (min e (5/2))

/-- Lines 143 to 152 of the source: the interval rule, taking the previous
`review_count` (not yet incremented), the previous `interval` and the freshly
clamped easiness. -/
def sm2_interval (quality review_count : Nat) (interval easiness : ℚ) : ℚ :=
  if 3 ≤ quality then
    if review_count = 0 then 1
    else if review_count = 1 then 6
    else min (interval * easiness) 365
  else 1

/-- Line 160 of the source: `mastered = (quality >= 4 and review_count >= 5)`,
where `review_count` has already been incremented. -/
def sm2_mastered (quality review_count : Nat) : Bool :=
  decide (4 ≤ quality ∧ 5 ≤ review_count)

/-- `EbbinghausMemory.update_item_review`: loads the row with the given id
(silently returning when there is none), recomputes the scheduling state with
the SM-2 rules, writes the row back and appends one `review_history` record. -/
def update_item_review (db : DB) (item_id quality response_time : Nat) (now : ℚ) : DB :=
  match db.memory_items.find? (fun x => x.id == item_id) with
  | none => db
  | some it =>
      let easiness := sm2_easiness it.easiness quality
      let interval := sm2_interval quality it.review_count it.interval easiness
      let review_count := it.review_count + 1
      let next_review := now + interval
      let mastered := sm2_mastered quality review_count
      let updated : MemoryItem :=
        { it with
          review_count := review_count
          easiness := easiness
          interval := interval
          next_review := next_review
          last_reviewed := some now
          mastered := mastered
          difficulty := quality }
      { db with
        memory_items := db.memory_items.map (fun x => if x.id == item_id then updated else x)
        review_history := db.review_history ++ [⟨item_id, now, quality, response_time⟩] }

/-- Ordering used by `get_due_items`: `ORDER BY next_review ASC`. -/
def dueLe (a b : MemoryItem) : Prop := a.next_review ≤ b.next_review

instance : DecidableRel dueLe := fun a b =>
  inferInstanceAs (Decidable (a.next_review ≤ b.next_review))

instance : IsTotal MemoryItem dueLe := ⟨fun a b => le_total a.next_review b.next_review⟩

instance : IsTrans MemoryItem dueLe := ⟨fun _ _ _ h1 h2 => le_trans h1 h2⟩

/-- The `WHERE` clause of `get_due_items`: `next_review <= now AND mastered = FALSE`. -/
def is_due (now : ℚ) (it : MemoryItem) : Bool :=
  decide (it.next_review ≤ now) && (it.mastered == false)

/-- Rows produced by the `get_due_items` query before column projection:
`WHERE next_review <= now AND mastered = FALSE ORDER BY next_review ASC LIMIT limit`. -/
def due_rows (db : DB) (now : ℚ) (limit : Nat) : List MemoryItem :=
  (List.insertionSort dueLe (db.memory_items.filter (is_due now))).take limit

/-- The seven columns `get_due_items` selects per row. -/
structure DueItemSummary where
  id : Nat
  question : String
  answer : String
  category : String
  review_count : Nat
  difficulty : Nat
  easiness : ℚ
deriving DecidableEq

/-- Column projection of the `get_due_items` SELECT. -/
def due_summary (it : MemoryItem) : DueItemSummary :=
  ⟨it.id, it.question, it.answer, it.category, it.review_count, it.difficulty, it.easiness⟩

/-- `EbbinghausMemory.get_due_items` (default limit 20 at the call sites that omit it). -/
def get_due_items (db : DB) (now : ℚ) (limit : Nat) : List DueItemSummary :=
  (due_rows db now limit).map due_summary

/-- Ordering used by `get_all_items`: `ORDER BY created_at DESC`. -/
def createdDesc (a b : MemoryItem) : Prop := b.created_at ≤ a.created_at

instance : DecidableRel createdDesc := fun a b =>
  inferInstanceAs (Decidable (b.created_at ≤ a.created_at))

instance : IsTotal MemoryItem createdDesc := ⟨fun a b => le_total b.created_at a.created_at⟩

instance : IsTrans MemoryItem createdDesc := ⟨fun _ _ _ h1 h2 => le_trans h2 h1⟩

/-- The seven columns `get_all_items` selects per row. -/
structure ItemSummary where
  id : Nat
  question : String
  answer : String
  category : String
  review_count : Nat
  mastered : Bool
  next_review : ℚ
deriving DecidableEq

/-- Column projection of the `get_all_items` SELECT. -/
def all_summary (it : MemoryItem) : ItemSummary :=
  ⟨it.id, it.question, it.answer, it.category, it.review_count, it.mastered, it.next_review⟩

/-- Rows of `get_all_items` before projection: optional exact-category filter,
`ORDER BY created_at DESC`. `none` models Python `category=None` (and any other
falsy value of `category`). -/
def all_rows (db : DB) (category : Option String) : List MemoryItem :=
  match category with
  | some c => List.insertionSort createdDesc (db.memory_items.filter (fun it => it.category == c))
  | none => List.insertionSort createdDesc db.memory_items

/-- `EbbinghausMemory.get_all_items`. -/
def get_all_items (db : DB) (category : Option String) : List ItemSummary :=
  (all_rows db category).map all_summary

/-- `EbbinghausMemory.get_categories`: `SELECT DISTINCT category FROM memory_items`. -/
def get_categories (db : DB) : List String :=
  (db.memory_items.map (fun it => it.category)).eraseDups

/-- `EbbinghausMemory.delete_item`: deletes the `review_history` rows with this
`item_id`, then the `memory_items` row with this id. -/
def delete_item (db : DB) (item_id : Nat) : DB :=
  { db with
    review_history := db.review_history.filter (fun e => !(e.item_id == item_id))
    memory_items := db.memory_items.filter (fun it => !(it.id == item_id)) }

/-- Python `round(x, 1)` numerator step: round-half-to-even on an exact rational. -/
def round_half_even (x : ℚ) : ℤ :=
  let f := ⌊x⌋
  let r := x - (f : ℚ)
  if r < 1/2 then f
  else if (1 : ℚ)/2 < r then f + 1
  else if f % 2 = 0 then f else f + 1

/-- The dictionary returned by `get_stats` (per-category entries as
(category, total, mastered) triples). -/
structure StatsSummary where
  total : Nat
  mastered : Nat
  due : Nat
  mastery_rate : ℚ
  categories : List (String × Nat × Nat)
deriving DecidableEq

/-- `EbbinghausMemory.get_stats`. -/
def get_stats (db : DB) (now : ℚ) : StatsSummary :=
  let items := get_all_items db none
  let categories := get_categories db
  let total := items.length
  let mastered := (items.filter (fun it => it.mastered)).length
  let due_count := (get_due_items db now 1000).length
  let category_stats := categories.map (fun c =>
    let cat_items := items.filter (fun it => it.category == c)
    (c, cat_items.length, (cat_items.filter (fun it => it.mastered)).length))
  { total := total
    mastered := mastered
    due := due_count
    mastery_rate :=
      if 0 < total then ((round_half_even ((mastered : ℚ) / (total : ℚ) * 100 * 10)) : ℚ) / 10
      else 0
    categories := category_stats }

/-- JSON envelope of the POST handlers: `{'success': True, 'item_id': id}` is
`success (some id)`, bare `{'success': True}` is `success none`, and
`{'success': False, 'error': msg}` is `failure msg`. -/
inductive ApiResponse where
  | success : Option Nat → ApiResponse
  | failure : String → ApiResponse
deriving DecidableEq

/-- Python `str.strip()` (no argument): drops whitespace from both ends.
Modelled over the underlying character list so it is kernel-executable. -/
def pyStrip (s : String) : String :=
  ⟨((s.data.dropWhile Char.isWhitespace).reverse.dropWhile Char.isWhitespace).reverse⟩

/-- `MemoryHTTPRequestHandler.handle_add_item`: rejects when question or answer
is empty after stripping whitespace (`if not question.strip() or not
answer.strip()`), otherwise calls `add_item`. -/
def handle_add_item (db : DB) (question answer category : String) (now : ℚ) :
    ApiResponse × DB :=
  if pyStrip question == "" || pyStrip answer == "" then
    (ApiResponse.failure "问题和答案都不能为空", db)
  else
    let r := add_item db question answer category now
    (ApiResponse.success (some r.2), r.1)

/-- `MemoryHTTPRequestHandler.handle_review`: rejects a falsy `item_id`
(modelled by 0) or a quality outside `[1, 2, 3, 4, 5]`, otherwise calls
`update_item_review` and reports success. -/
def handle_review (db : DB) (item_id quality : Nat) (now : ℚ) : ApiResponse × DB :=
  if item_id == 0 || !(([1, 2, 3, 4, 5] : List Nat).contains quality) then
    (ApiResponse.failure "参数错误", db)
  else
    (ApiResponse.success none, update_item_review db item_id quality 0 now)

/-- `MemoryHTTPRequestHandler.handle_delete`: rejects a falsy `item_id`,
otherwise calls `delete_item` and reports success. -/
def handle_delete (db : DB) (item_id : Nat) : ApiResponse × DB :=
  if item_id == 0 then (ApiResponse.failure "参数错误", db)
  else (ApiResponse.success none, delete_item db item_id)

/-! ### Shared lemmas about the scheduler -/

theorem sm2_easiness_lb (ef : ℚ) (q : Nat) : 13/10 ≤ sm2_easiness ef q :=
  le_max_left _ _

theorem sm2_easiness_ub (ef : ℚ) (q : Nat) : sm2_easiness ef q ≤ 5/2 :=
  max_le (by norm_num) (min_le_right _ _)

/-! ### Claims about the scheduler arithmetic -/

/-- C1: for every previous easiness `ef ∈ [1.3, 2.5]` and quality
`q ∈ {1,2,3,4,5}`, the review computes the new easiness as
`ef + (0.1 - (5 - q) * (0.08 + (5 - q) * 0.02))` clamped into `[1.3, 2.5]`,
so the updated easiness always lies in `[1.3, 2.5]`. -/
theorem easiness_update_clamped (ef : ℚ) (q : Nat)
    (hef1 : 13/10 ≤ ef) (hef2 : ef ≤ 5/2) (hq1 : 1 ≤ q) (hq5 : q ≤ 5) :
    sm2_easiness ef q =
      max (13/10)
        (min (ef + (1/10 - (5 - (q : ℚ)) * (8/100 + (5 - (q : ℚ)) * (2/100)))) (5/2))
    ∧ 13/10 ≤ sm2_easiness ef q ∧ sm2_easiness ef q ≤ 5/2 :=
  ⟨rfl, sm2_easiness_lb ef q, sm2_easiness_ub ef q⟩

theorem easiness_update_clamped_witness :
    sm2_easiness 2 3 =
      max (13/10)
        (min ((2 : ℚ) + (1/10 - (5 - (3 : ℚ)) * (8/100 + (5 - (3 : ℚ)) * (2/100)))) (5/2))
    ∧ 13/10 ≤ sm2_easiness 2 3 ∧ sm2_easiness 2 3 ≤ 5/2 :=
  easiness_update_clamped 2 3 (by norm_num) (by norm_num) (by norm_num) (by norm_num)

/-- C2: the new interval after a review is 1 when `q < 3` (a lapse, regardless
of history); otherwise 1 when the previous review count is 0, 6 when it is 1,
and `min(previous interval * newly clamped easiness, 365)` when it is at
least 2. -/
theorem interval_update_rule (q rc : Nat) (i ef : ℚ) (hq1 : 1 ≤ q) (hq5 : q ≤ 5) :
    (q < 3 → sm2_interval q rc i (sm2_easiness ef q) = 1)
    ∧ (3 ≤ q → rc = 0 → sm2_interval q rc i (sm2_easiness ef q) = 1)
    ∧ (3 ≤ q → rc = 1 → sm2_interval q rc i (sm2_easiness ef q) = 6)
    ∧ (3 ≤ q → 2 ≤ rc →
        sm2_interval q rc i (sm2_easiness ef q) = min (i * sm2_easiness ef q) 365) := by
  refine ⟨fun h => ?_, fun h h0 => ?_, fun h h1 => ?_, fun h h2 => ?_⟩ <;>
    unfold sm2_interval <;> split_ifs <;> first | rfl | omega

theorem interval_update_rule_witness :
    sm2_interval 2 3 10 (sm2_easiness 2 2) = 1
    ∧ sm2_interval 5 0 10 (sm2_easiness 2 5) = 1
    ∧ sm2_interval 5 1 10 (sm2_easiness 2 5) = 6
    ∧ sm2_interval 5 3 10 (sm2_easiness 2 5) = min ((10 : ℚ) * sm2_easiness 2 5) 365 :=
  ⟨(interval_update_rule 2 3 10 2 (by norm_num) (by norm_num)).1 (by norm_num),
   (interval_update_rule 5 0 10 2 (by norm_num) (by norm_num)).2.1 (by norm_num) rfl,
   (interval_update_rule 5 1 10 2 (by norm_num) (by norm_num)).2.2.1 (by norm_num) rfl,
   (interval_update_rule 5 3 10 2 (by norm_num) (by norm_num)).2.2.2 (by norm_num) (by norm_num)⟩

/-- C8: for every state with interval at least 1 and easiness in `[1.3, 2.5]`,
and every quality in `{1,...,5}`, the interval after the review update lies in
`[1, 365]`. -/
theorem interval_update_bounds (q rc : Nat) (i ef : ℚ)
    (hi : 1 ≤ i) (hef1 : 13/10 ≤ ef) (hef2 : ef ≤ 5/2) (hq1 : 1 ≤ q) (hq5 : q ≤ 5) :
    1 ≤ sm2_interval q rc i (sm2_easiness ef q)
    ∧ sm2_interval q rc i (sm2_easiness ef q) ≤ 365 := by
  have hlb : 13/10 ≤ sm2_easiness ef q := sm2_easiness_lb ef q
  unfold sm2_interval
  split_ifs
  · exact ⟨le_refl 1, by norm_num⟩
  · exact ⟨by norm_num, by norm_num⟩
  · refine ⟨le_min (by nlinarith) (by norm_num), min_le_right _ _⟩
  · exact ⟨le_refl 1, by norm_num⟩

theorem interval_update_bounds_witness :
    1 ≤ sm2_interval 4 3 10 (sm2_easiness 2 4)
    ∧ sm2_interval 4 3 10 (sm2_easiness 2 4) ≤ 365 :=
  interval_update_bounds 4 3 10 2 (by norm_num) (by norm_num) (by norm_num)
    (by norm_num) (by norm_num)

/-! ### Claims about the review update on the database -/

theorem find?_map_update {α : Type} (p : α → Bool) (y : α) (hy : p y = true)
    (l : List α) :
    (l.map (fun x => if p x then y else x)).find? p = (l.find? p).map (fun _ => y) := by
  induction l with
  | nil => rfl
  | cons a l ih =>
    by_cases hpa : p a = true
    · simp [hpa, hy]
    · have hpa' : p a = false := by simpa using hpa
      simp [List.find?_cons, hpa', ih]

/-- Item of the counterexample database: already mastered, five reviews done. -/
def exMasteredItem : MemoryItem :=
  { id := 1
    question := "q"
    answer := "a"
    content := "Q: q\nA: a"
    category := "default"
    created_at := 0
    last_reviewed := some 0
    next_review := 6
    review_count := 5
    difficulty := 5
    easiness := 5/2
    interval := 6
    mastered := true }

/-- Database holding one already-mastered item. -/
def exMasteredDB : DB := ⟨[exMasteredItem], [], 2⟩

/-- C3 counterexample: the item of `exMasteredDB` has `mastered = true`, yet a
review with quality 2 leaves it with `mastered = false` — `update_item_review`
resets the flag. -/
theorem mastered_reset_counterexample :
    exMasteredItem.mastered = true
    ∧ ((update_item_review exMasteredDB 1 2 0 6).memory_items.map
        (fun x => x.mastered)) = [false] := by
  exact ⟨rfl, by decide⟩

/-- C3 amended: `update_item_review` recomputes `mastered` from scratch on every
review as `quality ≥ 4 AND new review count ≥ 5`, regardless of the previous
value of the flag; in particular a quality below 4 resets a mastered item to
unmastered, so mastery is not monotonic within this function. -/
theorem mastered_recomputed (db : DB) (item_id q rt : Nat) (now : ℚ) (it : MemoryItem)
    (h : db.memory_items.find? (fun x => x.id == item_id) = some it) :
    ((update_item_review db item_id q rt now).memory_items.find?
        (fun x => x.id == item_id)).map (fun x => x.mastered)
      = some (sm2_mastered q (it.review_count + 1)) := by
  have hit := List.find?_some h
  unfold update_item_review
  rw [h]
  dsimp only
  rw [find?_map_update]
  · rw [h]
    rfl
  · exact hit

theorem mastered_recomputed_witness :
    ((update_item_review exMasteredDB 1 2 0 6).memory_items.find?
        (fun x => x.id == 1)).map (fun x => x.mastered)
      = some (sm2_mastered 2 (exMasteredItem.review_count + 1)) :=
  mastered_recomputed exMasteredDB 1 2 0 6 exMasteredItem rfl

/-- Fresh database holding one just-created item (id 1). -/
def c4_db0 : DB := (add_item emptyDB "q" "a" "default" 0).1

/-- State of the database after `n` reviews of item 1 with quality 5. -/
def c4_after : Nat → DB
  | 0 => c4_db0
  | n + 1 => update_item_review (c4_after n) 1 5 0 0

/-- C4: on a freshly created item, five successive quality-5 reviews increment
the review count by exactly 1 each time (0, 1, 2, 3, 4, 5) and set `mastered`
exactly on the fifth review. -/
theorem five_quality5_reviews_master :
    ((c4_after 0).memory_items.map (fun x => (x.review_count, x.mastered)) = [(0, false)])
    ∧ ((c4_after 1).memory_items.map (fun x => (x.review_count, x.mastered)) = [(1, false)])
    ∧ ((c4_after 2).memory_items.map (fun x => (x.review_count, x.mastered)) = [(2, false)])
    ∧ ((c4_after 3).memory_items.map (fun x => (x.review_count, x.mastered)) = [(3, false)])
    ∧ ((c4_after 4).memory_items.map (fun x => (x.review_count, x.mastered)) = [(4, false)])
    ∧ ((c4_after 5).memory_items.map (fun x => (x.review_count, x.mastered)) = [(5, true)]) := by
  decide

/-! ### Claims about error handling -/

/-- C6 counterexample: the empty database has no item with id 1, yet
`handle_review` on id 1 reports success and leaves the database unchanged — a
silent no-op, not a NotFound failure. -/
theorem review_missing_id_counterexample :
    emptyDB.memory_items.find? (fun x => x.id == 1) = none
    ∧ handle_review emptyDB 1 3 0 = (ApiResponse.success none, emptyDB) := by
  exact ⟨rfl, rfl⟩

/-- C6 amended: for every id that does not reference an existing item (and a
non-falsy id with valid quality, so the parameter check passes), the review
request completes silently: `update_item_review` leaves the database unchanged
and the handler reports success; no NotFound condition is raised. -/
theorem review_missing_id_silent (db : DB) (item_id quality : Nat) (now : ℚ)
    (h : db.memory_items.find? (fun x => x.id == item_id) = none)
    (hid : item_id ≠ 0)
    (hq : (([1, 2, 3, 4, 5] : List Nat).contains quality) = true) :
    handle_review db item_id quality now = (ApiResponse.success none, db) := by
  have hid' : (item_id == 0) = false := by simp [hid]
  have hcond : (item_id == 0 || !(([1, 2, 3, 4, 5] : List Nat).contains quality)) = false := by
    rw [hq, hid']
    rfl
  unfold handle_review update_item_review
  rw [hcond, h]
  rfl

theorem review_missing_id_silent_witness :
    handle_review emptyDB 2 4 0 = (ApiResponse.success none, emptyDB) :=
  review_missing_id_silent emptyDB 2 4 0 rfl (by decide) (by decide)

/-- C7 counterexample: the store's `add_item`, called directly with question and
answer that are empty after trimming, silently accepts them and creates an
item — the store performs no validation. -/
theorem add_item_accepts_empty_counterexample :
    pyStrip "" = "" ∧ ((add_item emptyDB "" "" "default" 0).1).memory_items.length = 1 :=
  ⟨rfl, rfl⟩

/-- C7 amended: validation of empty-after-trim question or answer happens only
at the facade: `handle_add_item` rejects with a validation error and leaves the
database unchanged, while the store's `add_item`, called directly, accepts the
same input and creates an item. -/
theorem add_validation_at_facade_only (db : DB) (question answer category : String)
    (now : ℚ) (h : pyStrip question = "" ∨ pyStrip answer = "") :
    handle_add_item db question answer category now
      = (ApiResponse.failure "问题和答案都不能为空", db)
    ∧ ((add_item db question answer category now).1).memory_items.length
      = db.memory_items.length + 1 := by
  constructor
  · unfold handle_add_item
    rcases h with h | h <;> simp [h]
  · unfold add_item
    simp

theorem add_validation_at_facade_only_witness :
    handle_add_item emptyDB " " "x" "default" 0
      = (ApiResponse.failure "问题和答案都不能为空", emptyDB)
    ∧ ((add_item emptyDB " " "x" "default" 0).1).memory_items.length
      = emptyDB.memory_items.length + 1 :=
  add_validation_at_facade_only emptyDB " " "x" "default" 0 (Or.inl (by decide))

/-! ### Claims about queries and deletion -/

/-- C5: every row returned by the due-item query is due (`next_review ≤ now`)
and unmastered, the rows come sorted by `next_review` ascending, at most
`limit` rows are returned, and — whenever the number of due rows fits in the
limit — every due, unmastered item of the table is returned. -/
theorem get_due_items_spec (db : DB) (now : ℚ) (limit : Nat) :
    (∀ it ∈ due_rows db now limit, it.next_review ≤ now ∧ it.mastered = false)
    ∧ List.Sorted dueLe (due_rows db now limit)
    ∧ (due_rows db now limit).length ≤ limit
    ∧ ((db.memory_items.filter (is_due now)).length ≤ limit →
        ∀ it ∈ db.memory_items, it.next_review ≤ now → it.mastered = false →
          it ∈ due_rows db now limit) := by
  refine ⟨?_, ?_, ?_, ?_⟩
  · intro it hmem
    unfold due_rows at hmem
    have h1 := List.mem_of_mem_take hmem
    have h2 := (List.mem_insertionSort dueLe).1 h1
    have h3 := (List.mem_filter.1 h2).2
    simpa [is_due] using h3
  · exact List.Pairwise.sublist (List.take_sublist _ _) (List.sorted_insertionSort dueLe _)
  · exact List.length_take_le _ _
  · intro hlen it hmem hnr hm
    have hfil : it ∈ db.memory_items.filter (is_due now) :=
      List.mem_filter.2 ⟨hmem, by simp [is_due, hnr, hm]⟩
    have hsort : it ∈ List.insertionSort dueLe (db.memory_items.filter (is_due now)) :=
      (List.mem_insertionSort dueLe).2 hfil
    unfold due_rows
    rw [List.take_of_length_le]
    · exact hsort
    · rw [List.length_insertionSort]
      exact hlen

/-- Item of the witness database for the due-item query: due and unmastered. -/
def exDueItem : MemoryItem :=
  { id := 1
    question := "q"
    answer := "a"
    content := "Q: q\nA: a"
    category := "default"
    created_at := 0
    last_reviewed := none
    next_review := 0
    review_count := 0
    difficulty := 1
    easiness := 5/2
    interval := 1
    mastered := false }

/-- Database holding the single due item. -/
def exDueDB : DB := ⟨[exDueItem], [], 2⟩

theorem get_due_items_spec_witness :
    exDueItem ∈ due_rows exDueDB 0 20
    ∧ (exDueItem.next_review ≤ (0 : ℚ) ∧ exDueItem.mastered = false) := by
  have hmem : exDueItem ∈ due_rows exDueDB 0 20 :=
    (get_due_items_spec exDueDB 0 20).2.2.2 (by decide) exDueItem (List.Mem.head _)
      (by decide) rfl
  exact ⟨hmem, (get_due_items_spec exDueDB 0 20).1 exDueItem hmem⟩

/-- C9: deleting an item removes it and all review-history records referencing
it (no orphan events remain, and it no longer appears in `get_all_items`),
while every other item and review event is kept. -/
theorem delete_item_cascades (db : DB) (item_id : Nat) :
    (∀ e ∈ (delete_item db item_id).review_history, e.item_id ≠ item_id)
    ∧ (∀ s ∈ get_all_items (delete_item db item_id) none, s.id ≠ item_id)
    ∧ (∀ it : MemoryItem,
        it ∈ (delete_item db item_id).memory_items ↔
          it ∈ db.memory_items ∧ it.id ≠ item_id)
    ∧ (∀ e : ReviewEvent,
        e ∈ (delete_item db item_id).review_history ↔
          e ∈ db.review_history ∧ e.item_id ≠ item_id) := by
  refine ⟨?_, ?_, ?_, ?_⟩
  · intro e he
    have h := (List.mem_filter.1 he).2
    simpa using h
  · intro s hs
    unfold get_all_items all_rows at hs
    obtain ⟨it, hit, rfl⟩ := List.mem_map.1 hs
    have h2 := (List.mem_insertionSort createdDesc).1 hit
    have h3 := (List.mem_filter.1 h2).2
    simpa [all_summary] using h3
  · intro it
    constructor
    · intro h
      have h' := List.mem_filter.1 h
      exact ⟨h'.1, by simpa using h'.2⟩
    · intro h
      exact List.mem_filter.2 ⟨h.1, by simpa using h.2⟩
  · intro e
    constructor
    · intro h
      have h' := List.mem_filter.1 h
      exact ⟨h'.1, by simpa using h'.2⟩
    · intro h
      exact List.mem_filter.2 ⟨h.1, by simpa using h.2⟩

/-- Second item of the deletion witness database, unrelated to the deleted id. -/
def exItemB : MemoryItem :=
  { id := 2
    question := "q2"
    answer := "a2"
    content := "Q: q2\nA: a2"
    category := "default"
    created_at := 1
    last_reviewed := none
    next_review := 2
    review_count := 0
    difficulty := 1
    easiness := 5/2
    interval := 1
    mastered := false }

/-- Database with two items (ids 1 and 2) and one review event each. -/
def exTwoDB : DB := ⟨[exMasteredItem, exItemB], [⟨1, 0, 5, 0⟩, ⟨2, 0, 3, 0⟩], 3⟩

theorem delete_item_cascades_witness :
    exItemB ∈ (delete_item exTwoDB 1).memory_items
    ∧ (⟨2, 0, 3, 0⟩ : ReviewEvent) ∈ (delete_item exTwoDB 1).review_history :=
  ⟨((delete_item_cascades exTwoDB 1).2.2.1 exItemB).mpr
      ⟨List.Mem.tail _ (List.Mem.head _), by decide⟩,
   ((delete_item_cascades exTwoDB 1).2.2.2 ⟨2, 0, 3, 0⟩).mpr
      ⟨List.Mem.tail _ (List.Mem.head _), by decide⟩⟩

/-- C10: the `due` field of the stats summary is the length of the due-item
query with limit 1000, i.e. the true number of due items capped at 1000; it
never exceeds 1000. -/
theorem stats_due_capped (db : DB) (now : ℚ) :
    (get_stats db now).due = min ((db.memory_items.filter (is_due now)).length) 1000
    ∧ (get_stats db now).due ≤ 1000 := by
  have h : (get_stats db now).due
      = min 1000 ((db.memory_items.filter (is_due now)).length) := by
    unfold get_stats get_due_items due_rows
    simp [List.length_map, List.length_take, List.length_insertionSort]
  refine ⟨?_, ?_⟩
  · rw [h, Nat.min_comm]
  · rw [h]
    exact Nat.min_le_left _ _

end Ebbinghaus
